import Mathlib

/-!
Shallow embedding of the magnet-shapes client (src/js/game.js, src/js/main.js,
and the WebSocket module) and proofs about its state-synchronization,
animation-sequencing, input-gating and rendering logic.

Conventions of the embedding:
* JS module-level mutable variables (`gameState`, `myPlayerId`,
  `animatingMagnets`, `currentSessionId`, ...) become fields of an explicit
  `ClientState` record; each message handler becomes a pure function
  `ClientState → message → ClientState`.
* JS `null` becomes `Option`; `===` between a string and a possibly-null
  value becomes equality of `Option String`.
* JS numbers are IEEE doubles, every one of which is a rational number; the
  coordinate arithmetic of the client (additions, multiplications, divisions
  by constants) is embedded over `ℚ`.  Only `Math.sqrt` and `Math.sin`
  force an idealization over `ℝ` (in the renderer).
* The asynchronous animation-frame loop is split into the data it installs
  (the `animatingMagnets` batch and the completion callback, recorded as a
  `pendingCommit` snapshot) plus explicit functions for one interpolation
  tick (`applyAnimTick`) and for the completion transition
  (`completeAnimation`).
-/

namespace MagnetShapes

/-- A 2D canvas-space position (JS `{x, y}`). -/
structure Pos where
  x : ℚ
  y : ℚ
deriving DecidableEq, Repr

/-- A player roster entry (server snapshot field `players[i]`). -/
structure Player where
  id : String
  name : String
  connected : Bool
  remainingMagnets : Int
deriving DecidableEq, Repr

/-- A placed token (server snapshot field `magnets[i]`). -/
structure Magnet where
  id : String
  playerId : String
  position : Pos
deriving DecidableEq, Repr

/-- The game-state snapshot carried by server messages (the fields the
client reads). -/
structure GameState where
  sessionId : String
  shapeType : String
  status : String
  players : List Player
  magnets : List Magnet
  currentTurnPlayerId : Option String
deriving DecidableEq, Repr

/-- One attraction-driven relocation, from `message.movements`. -/
structure Movement where
  magnetId : String
  fromPosition : Pos
  toPosition : Pos
deriving DecidableEq, Repr

/-- One entry of game.js `animatingMagnets` (`{ magnetId, fromPos, toPos,
progress }`). -/
structure AnimMagnet where
  magnetId : String
  fromPos : Pos
  toPos : Pos
  progress : ℚ
deriving DecidableEq, Repr

/-- game.js configuration constant `MAGNET_RADIUS = 12`. -/
def MAGNET_RADIUS : ℚ := 12

/-- game.js configuration constant `CLUMP_THRESHOLD = 30`. -/
def CLUMP_THRESHOLD : ℚ := 30

/-- game.js configuration constant `ATTRACTION_RANGE = 150`. -/
def ATTRACTION_RANGE : ℚ := 150

/-- game.js configuration constant `ANIMATION_DURATION = 600` (ms). -/
def ANIMATION_DURATION : ℚ := 600

/-- game.js `canPlaceMagnet()`: the Input Gate.  Mirrors the early-return
cascade of the source line by line. -/
def canPlaceMagnet (gameState : Option GameState) (myPlayerId : Option String)
    (animatingMagnets : List AnimMagnet) : Bool :=
  match gameState with
  | none => false
  | some gs =>
    if gs.status ≠ "playing" then false
    else if gs.currentTurnPlayerId ≠ myPlayerId then false
    else if 0 < animatingMagnets.length then false
    else
      match gs.players.find? (fun p => some p.id == myPlayerId) with
      | none => false
      | some myPlayer => if myPlayer.remainingMagnets ≤ 0 then false else true

/-- Unfolding of the early-return cascade of `canPlaceMagnet`: true iff a
GameState exists, its status is "playing", the current turn is the local
player, the `animatingMagnets` batch is empty, and the local player is
found in the roster with a strictly positive remaining-magnet count. -/
theorem canPlaceMagnet_eq_true_iff (gameState : Option GameState)
    (myPlayerId : Option String) (animatingMagnets : List AnimMagnet) :
    (canPlaceMagnet gameState myPlayerId animatingMagnets = true ↔
      ∃ gs, gameState = some gs ∧ gs.status = "playing" ∧
        gs.currentTurnPlayerId = myPlayerId ∧ animatingMagnets = [] ∧
        ∃ p, gs.players.find? (fun q => some q.id == myPlayerId) = some p ∧
          0 < p.remainingMagnets) ∧
    (animatingMagnets ≠ [] →
      canPlaceMagnet gameState myPlayerId animatingMagnets = false) := by
  constructor
  · cases gameState with
    | none => simp [canPlaceMagnet]
    | some gs =>
      simp only [canPlaceMagnet]
      constructor
      · intro h
        have h1 : gs.status = "playing" := by
          by_contra h1; simp [h1] at h
        have h2 : gs.currentTurnPlayerId = myPlayerId := by
          by_contra h2; simp [h1, h2] at h
        have h3 : ¬ 0 < animatingMagnets.length := by
          intro h3; simp [h1, h2, h3] at h
        have hanil : animatingMagnets = [] := List.length_eq_zero.mp (by omega)
        rcases hf : gs.players.find? (fun q => some q.id == myPlayerId) with _ | p
        · simp [h1, h2, h3, hf] at h
        · refine ⟨gs, rfl, h1, h2, hanil, p, hf, ?_⟩
          by_contra h5
          have h5' : p.remainingMagnets ≤ 0 := by omega
          simp [h1, h2, h3, hf, h5'] at h
      · rintro ⟨gs', hgs, h1, h2, h3, p, hf, h5⟩
        injection hgs with hgs'
        subst hgs'
        subst h3
        simp [h1, h2, hf]
        omega
  · intro hne
    cases gameState with
    | none => simp [canPlaceMagnet]
    | some gs =>
      have hlen : 0 < animatingMagnets.length := by
        cases animatingMagnets with
        | nil => exact absurd rfl hne
        | cons a l => simp
      simp only [canPlaceMagnet]
      by_cases h1 : gs.status = "playing"
      · by_cases h2 : gs.currentTurnPlayerId = myPlayerId
        · simp [h1, h2, hlen]
        · simp [h1, h2]
      · simp [h1]


/-- The animation entry `animateMovements` builds for one `Movement`
(game.js: `movements.map(m => ({ magnetId, fromPos, toPos, progress: 0 }))`). -/
def mkAnim (m : Movement) : AnimMagnet :=
  ⟨m.magnetId, m.fromPosition, m.toPosition, 0⟩

/-- Set the position of the first magnet whose id matches (the effect of
`const magnet = magnets.find(m => m.id === id); if (magnet) magnet.position = p`). -/
def setFirstPosition : List Magnet → String → Pos → List Magnet
  | [], _, _ => []
  | m :: rest, mid, p =>
    if m.id == mid then { m with position := p } :: rest
    else m :: setFirstPosition rest mid p

/-- Run the find-and-set-position loop once per element of `l`, taking the
target id and the new position from each element. -/
def setEach (key : α → String) (pos : α → Pos) : List Magnet → List α → List Magnet
  | ms, [] => ms
  | ms, a :: rest => setEach key pos (setFirstPosition ms (key a) (pos a)) rest

/-- main.js `handleMagnetPlaced`: the loop that resets each moved magnet of
the (deep-copied) snapshot back to its movement origin, producing the
synthetic pre-animation snapshot. -/
def resetToOrigins (magnets : List Magnet) (movements : List Movement) : List Magnet :=
  setEach Movement.magnetId Movement.fromPosition magnets movements

/-- game.js `gameState.magnets.find(m => m.id === id)`. -/
def lookupMagnet (magnets : List Magnet) (mid : String) : Option Magnet :=
  magnets.find? (fun m => m.id == mid)

/-- The whole client-side mutable state: game.js module variables
(`gameState`, `myPlayerId`, `animatingMagnets`), main.js module variables
(`currentSessionId`, the game-over modal), the notice feed written by
`showMessage(text, type)` (newest first), and, for each of the two
animation kinds, the completion callback installed by the most recent
call, recorded as the snapshot it will commit (`pendingCommit` for
`animateMovements`, `pendingClumpCommit` for `animateClumpCollection`,
whose in-flight payload is `activeClumpAnim`).  The source never cancels a
superseded frame chain (`cancelAnimationFrame` is called only in
`reset()`), so a superseded callback may fire as well; `completeAnimation`
below models the completion of the most recent movement animation only,
and no theorem relies on the superseded callback being replaced. -/
structure ClientState where
  gameState : Option GameState
  myPlayerId : Option String
  animatingMagnets : List AnimMagnet
  pendingCommit : Option GameState
  activeClumpAnim : Option (List Magnet × String)
  pendingClumpCommit : Option GameState
  currentSessionId : Option String
  modal : Option String
  notices : List (String × String)
deriving DecidableEq, Repr

/-- The `MAGNET_PLACED` message payload read by the client. -/
structure MagnetPlacedMsg where
  gameState : GameState
  magnet : Magnet
  movements : List Movement
deriving DecidableEq, Repr

/-- The `MAGNETS_CLUMPED` message payload read by the client. -/
structure MagnetsClumpedMsg where
  gameState : GameState
  clumpedMagnets : List Magnet
  collectorPlayerId : String
  magnetsCollected : Nat
deriving DecidableEq, Repr

/-- game.js `showMessage(text, type)`: prepend to the notice feed. -/
def showMessage (s : ClientState) (text ty : String) : ClientState :=
  { s with notices := (text, ty) :: s.notices }

/-- main.js `handleMagnetPlaced`.  With a non-empty movement batch it
commits the synthetic reset-to-origins snapshot, shows the attraction
notice, and starts `animateMovements` (recording the batch in
`animatingMagnets` and the completion commit of the real snapshot in
`pendingCommit`); with no movements it commits the snapshot directly. -/
def handleMagnetPlaced (s : ClientState) (msg : MagnetPlacedMsg) : ClientState :=
  let player := msg.gameState.players.find? (fun p => p.id == msg.magnet.playerId)
  if msg.movements ≠ [] then
    let stateBeforeMovement : GameState :=
      { msg.gameState with
        magnets := resetToOrigins msg.gameState.magnets msg.movements }
    let s1 := { s with gameState := some stateBeforeMovement }
    let s2 :=
      match player with
      | some p =>
        if some p.id ≠ s.myPlayerId then
          showMessage s1 (p.name ++ " placed a magnet - magnets attracting!") "info"
        else showMessage s1 "Magnets are attracting!" "info"
      | none => s1
    { s2 with
      animatingMagnets := msg.movements.map mkAnim,
      pendingCommit := some msg.gameState }
  else
    let s1 := { s with gameState := some msg.gameState }
    match player with
    | some p =>
      if some p.id ≠ s.myPlayerId then
        showMessage s1 (p.name ++ " placed a magnet") "info"
      else s1
    | none => s1

/-- game.js `animateMovements`: the final tick (`progress = 1`) clears
`animatingMagnets` and fires the completion callback, which commits the
pending snapshot (`Game.updateState(message.gameState)` in main.js). -/
def completeAnimation (s : ClientState) : ClientState :=
  { s with
    animatingMagnets := [],
    gameState :=
      match s.pendingCommit with
      | some g => some g
      | none => s.gameState,
    pendingCommit := none }

/-- main.js `handleMagnetsClumped`: shows the collection notice and starts
`animateClumpCollection`; an empty clump list completes immediately
(game.js guard), committing the snapshot at once. -/
def handleMagnetsClumped (s : ClientState) (msg : MagnetsClumpedMsg) : ClientState :=
  let collector := msg.gameState.players.find? (fun p => p.id == msg.collectorPlayerId)
  let isMe := some msg.collectorPlayerId == s.myPlayerId
  let s1 :=
    if isMe then
      showMessage s ("You collected " ++ toString msg.magnetsCollected ++
        " magnets from clumping!") "warning"
    else
      match collector with
      | some c =>
        showMessage s (c.name ++ " collected " ++ toString msg.magnetsCollected ++
          " magnets from clumping!") "warning"
      | none => s
  if msg.clumpedMagnets = [] then
    { s1 with gameState := some msg.gameState }
  else
    { s1 with
      activeClumpAnim := some (msg.clumpedMagnets, msg.collectorPlayerId),
      pendingClumpCommit := some msg.gameState }

/-- main.js `handlePlacementInvalid`: only surfaces the rejection reason. -/
def handlePlacementInvalid (s : ClientState) (reason : String) : ClientState :=
  showMessage s reason "error"

/-- main.js `handleTurnChanged`: patch `currentTurnPlayerId` on the existing
snapshot when one exists, and show the your-turn notice when the new turn
is the local player. -/
def handleTurnChanged (s : ClientState) (newId : Option String) : ClientState :=
  let s1 :=
    match s.gameState with
    | some gs => { s with gameState := some { gs with currentTurnPlayerId := newId } }
    | none => s
  if newId = s.myPlayerId then showMessage s1 "It's your turn!" "success"
  else s1

/-- main.js `handleGameOver`: guarded by the live-session check
(`if (!currentSessionId) return;`); otherwise fills and shows the modal. -/
def handleGameOver (s : ClientState) (winnerId winnerName : String) : ClientState :=
  match s.currentSessionId with
  | none => s
  | some _ =>
    let isWinner := some winnerId = s.myPlayerId
    { s with
      modal := some (if isWinner then "You Win! 🎉" else winnerName ++ " Wins!") }

/-- main.js `handleLeaveSession` followed by `resetToLobby` and
`Game.reset()`: clears the session id, hides the modal, clears the game
state and player identity, and cancels any in-flight animation without
firing its completion callback. -/
def handleLeaveSession (s : ClientState) : ClientState :=
  { gameState := none,
    myPlayerId := none,
    animatingMagnets := [],
    pendingCommit := none,
    activeClumpAnim := none,
    pendingClumpCommit := none,
    currentSessionId := none,
    modal := none,
    notices := s.notices }

theorem lookupMagnet_setFirstPosition (ms : List Magnet) (mid : String) (p : Pos) :
    lookupMagnet (setFirstPosition ms mid p) mid =
      (lookupMagnet ms mid).map (fun m => { m with position := p }) := by
  induction ms with
  | nil => rfl
  | cons m rest ih =>
    by_cases h : m.id = mid
    · have hb : (m.id == mid) = true := beq_iff_eq.mpr h
      simp [lookupMagnet, setFirstPosition, hb, List.find?]
    · have hb : (m.id == mid) = false := beq_eq_false_iff_ne.mpr h
      simpa [lookupMagnet, setFirstPosition, hb, List.find?] using ih

theorem lookupMagnet_setFirstPosition_ne (ms : List Magnet) (mid mid' : String)
    (p : Pos) (h : mid' ≠ mid) :
    lookupMagnet (setFirstPosition ms mid p) mid' = lookupMagnet ms mid' := by
  induction ms with
  | nil => rfl
  | cons m rest ih =>
    by_cases hm : m.id = mid
    · have hb : (m.id == mid) = true := beq_iff_eq.mpr hm
      have hb' : (m.id == mid') = false := by
        rw [beq_eq_false_iff_ne, hm]
        exact fun e => h e.symm
      simp [lookupMagnet, setFirstPosition, hb, hb', List.find?]
    · have hb : (m.id == mid) = false := beq_eq_false_iff_ne.mpr hm
      by_cases hm' : m.id = mid'
      · have hb2 : (m.id == mid') = true := beq_iff_eq.mpr hm'
        simp [lookupMagnet, setFirstPosition, hb, hb2, List.find?]
      · have hb2 : (m.id == mid') = false := beq_eq_false_iff_ne.mpr hm'
        simpa [lookupMagnet, setFirstPosition, hb, hb2, List.find?] using ih

theorem lookupMagnet_setEach_not_mem (key : α → String) (pos : α → Pos)
    (l : List α) (mid : String) (h : mid ∉ l.map key) :
    ∀ ms, lookupMagnet (setEach key pos ms l) mid = lookupMagnet ms mid := by
  induction l with
  | nil => intro ms; rfl
  | cons a rest ih =>
    intro ms
    simp only [List.map_cons, List.mem_cons] at h
    push_neg at h
    rw [setEach, ih h.2, lookupMagnet_setFirstPosition_ne _ _ _ _ h.1]

theorem lookupMagnet_setEach (key : α → String) (pos : α → Pos) :
    ∀ (l : List α) (ms : List Magnet) (a : α), a ∈ l → (l.map key).Nodup →
      lookupMagnet (setEach key pos ms l) (key a) =
        (lookupMagnet ms (key a)).map (fun m => { m with position := pos a }) := by
  intro l
  induction l with
  | nil => intro ms a ha _; cases ha
  | cons b rest ih =>
    intro ms a ha hnodup
    simp only [List.map_cons, List.nodup_cons] at hnodup
    rw [setEach]
    rcases List.mem_cons.mp ha with h | h
    · subst h
      rw [lookupMagnet_setEach_not_mem key pos rest (key a) hnodup.1,
        lookupMagnet_setFirstPosition]
    · have hne : key a ≠ key b := by
        intro e
        exact hnodup.1 (e ▸ List.mem_map_of_mem key h)
      rw [ih _ a h hnodup.2, lookupMagnet_setFirstPosition_ne _ _ _ _ hne]

theorem handleMagnetPlaced_nonempty (s : ClientState) (msg : MagnetPlacedMsg)
    (hne : msg.movements ≠ []) :
    ∃ ns, handleMagnetPlaced s msg =
      { s with
        gameState := some { msg.gameState with
          magnets := resetToOrigins msg.gameState.magnets msg.movements },
        animatingMagnets := msg.movements.map mkAnim,
        pendingCommit := some msg.gameState,
        notices := ns } := by
  simp only [handleMagnetPlaced]
  split
  · split
    · split
      · exact ⟨_, rfl⟩
      · exact ⟨_, rfl⟩
    · exact ⟨_, rfl⟩
  · next h => exact absurd hne h

theorem handleMagnetPlaced_empty (s : ClientState) (msg : MagnetPlacedMsg)
    (he : msg.movements = []) :
    ∃ ns, handleMagnetPlaced s msg =
      { s with gameState := some msg.gameState, notices := ns } := by
  simp only [handleMagnetPlaced]
  split
  · next h => exact absurd he h
  · split
    · split
      · exact ⟨_, rfl⟩
      · exact ⟨_, rfl⟩
    · exact ⟨_, rfl⟩

theorem handleMagnetsClumped_empty (s : ClientState) (msg : MagnetsClumpedMsg)
    (he : msg.clumpedMagnets = []) :
    ∃ ns, handleMagnetsClumped s msg =
      { s with gameState := some msg.gameState, notices := ns } := by
  simp only [handleMagnetsClumped]
  split
  · split
    · exact ⟨_, rfl⟩
    · split
      · exact ⟨_, rfl⟩
      · exact ⟨_, rfl⟩
  · next h => exact absurd he h

theorem handleMagnetsClumped_nonempty (s : ClientState) (msg : MagnetsClumpedMsg)
    (hne : msg.clumpedMagnets ≠ []) :
    ∃ ns, handleMagnetsClumped s msg =
      { s with
        activeClumpAnim := some (msg.clumpedMagnets, msg.collectorPlayerId),
        pendingClumpCommit := some msg.gameState,
        notices := ns } := by
  simp only [handleMagnetsClumped]
  split
  · next h => exact absurd h hne
  · split
    · exact ⟨_, rfl⟩
    · split
      · exact ⟨_, rfl⟩
      · exact ⟨_, rfl⟩

/-- The Input Gate at its call sites: game.js `canPlaceMagnet()` reads the
module variables `gameState`, `myPlayerId` and `animatingMagnets`.  It
reads nothing else: in particular the clump-collection animation
(`animateClumpCollection`) keeps its entries in a local variable and sets
only `animationFrameId`, never `animatingMagnets`, so the gate cannot see
it (modeled here by `activeClumpAnim` not being consulted). -/
def canPlaceMagnetState (s : ClientState) : Bool :=
  canPlaceMagnet s.gameState s.myPlayerId s.animatingMagnets

/-- C2 counterexample: a tokens-clumped message with a non-empty clump list
starts the collection animation, yet the Input Gate still returns true —
`canPlaceMagnet` is not false whenever an animation is in flight, because
the clump-collection animation never writes `animatingMagnets`. -/
theorem canPlaceMagnet_clump_counterexample :
    let gs : GameState :=
      ⟨"S", "circle", "playing", [⟨"p1", "Ann", true, 3⟩], [], some "p1"⟩
    let msg : MagnetsClumpedMsg := ⟨gs, [⟨"m1", "p2", ⟨0, 0⟩⟩], "p2", 1⟩
    let s0 : ClientState :=
      ⟨some gs, some "p1", [], none, none, none, some "S", none, []⟩
    (handleMagnetsClumped s0 msg).activeClumpAnim ≠ none ∧
    canPlaceMagnetState (handleMagnetsClumped s0 msg) = true := by
  decide

/-- C2 amended: `canPlaceMagnet()` returns true iff a GameState exists, its
status is "playing", the current-turn id equals the local player id, the
movement-animation batch `animatingMagnets` is empty, and the local player
is in the roster with a strictly positive remaining-magnet count; it is
false whenever a movement (attraction) animation is in flight, but it does
not consult the clump-collection animation, which never writes
`animatingMagnets`, so it can return true while that animation is in
flight. -/
theorem canPlaceMagnet_spec (s : ClientState) :
    (canPlaceMagnetState s = true ↔
      ∃ gs, s.gameState = some gs ∧ gs.status = "playing" ∧
        gs.currentTurnPlayerId = s.myPlayerId ∧ s.animatingMagnets = [] ∧
        ∃ p, gs.players.find? (fun q => some q.id == s.myPlayerId) = some p ∧
          0 < p.remainingMagnets) ∧
    (s.animatingMagnets ≠ [] → canPlaceMagnetState s = false) ∧
    (∀ ca, canPlaceMagnetState { s with activeClumpAnim := ca } =
      canPlaceMagnetState s) := by
  refine ⟨(canPlaceMagnet_eq_true_iff s.gameState s.myPlayerId s.animatingMagnets).1,
    (canPlaceMagnet_eq_true_iff s.gameState s.myPlayerId s.animatingMagnets).2,
    fun ca => rfl⟩

/-- Witness for C2 amended: a concrete in-flight movement animation forces
the gate shut. -/
theorem canPlaceMagnet_spec_witness :
    let s : ClientState :=
      ⟨some ⟨"S", "circle", "playing", [⟨"p1", "Ann", true, 3⟩], [], some "p1"⟩,
        some "p1", [⟨"m1", ⟨0, 0⟩, ⟨1, 1⟩, 0⟩], none, none, none,
        some "S", none, []⟩
    s.animatingMagnets ≠ [] ∧ canPlaceMagnetState s = false := by
  intro s
  exact ⟨by decide, (canPlaceMagnet_spec s).2.1 (by decide)⟩

/-- C3: a token-placed message with a non-empty movement batch first commits
the synthetic snapshot in which each moved token is reset to its movement
origin (characterized per token for batches with distinct movement ids),
starts the animation with the batch, and commits the real snapshot only via
the completion callback; with an empty batch the snapshot is committed
directly and no animation state changes. -/
theorem handleMagnetPlaced_spec (s : ClientState) (msg : MagnetPlacedMsg) :
    (msg.movements ≠ [] →
      (handleMagnetPlaced s msg).gameState =
        some { msg.gameState with
          magnets := resetToOrigins msg.gameState.magnets msg.movements } ∧
      (handleMagnetPlaced s msg).animatingMagnets = msg.movements.map mkAnim ∧
      (handleMagnetPlaced s msg).pendingCommit = some msg.gameState ∧
      (completeAnimation (handleMagnetPlaced s msg)).gameState = some msg.gameState ∧
      (∀ mv ∈ msg.movements, (msg.movements.map Movement.magnetId).Nodup →
        lookupMagnet (resetToOrigins msg.gameState.magnets msg.movements) mv.magnetId =
          (lookupMagnet msg.gameState.magnets mv.magnetId).map
            (fun m => { m with position := mv.fromPosition }))) ∧
    (msg.movements = [] →
      (handleMagnetPlaced s msg).gameState = some msg.gameState ∧
      (handleMagnetPlaced s msg).animatingMagnets = s.animatingMagnets ∧
      (handleMagnetPlaced s msg).pendingCommit = s.pendingCommit) := by
  constructor
  · intro hne
    obtain ⟨ns, hEq⟩ := handleMagnetPlaced_nonempty s msg hne
    rw [hEq]
    refine ⟨rfl, rfl, rfl, rfl, ?_⟩
    intro mv hmv hnodup
    exact lookupMagnet_setEach Movement.magnetId Movement.fromPosition
      msg.movements msg.gameState.magnets mv hmv hnodup
  · intro he
    obtain ⟨ns, hEq⟩ := handleMagnetPlaced_empty s msg he
    rw [hEq]
    exact ⟨rfl, rfl, rfl⟩

/-- Witness for C3: a concrete placement whose movement batch relocates one
magnet, checked against the synthetic snapshot and the completion commit. -/
theorem handleMagnetPlaced_spec_witness :
    let msg : MagnetPlacedMsg :=
      ⟨⟨"S", "circle", "playing", [⟨"p1", "Ann", true, 2⟩],
        [⟨"m1", "p1", ⟨5, 0⟩⟩], some "p1"⟩,
       ⟨"m1", "p1", ⟨1, 2⟩⟩, [⟨"m1", ⟨1, 2⟩, ⟨5, 0⟩⟩]⟩
    let s : ClientState :=
      ⟨none, some "p1", [], none, none, none, some "S", none, []⟩
    msg.movements ≠ [] ∧
    (handleMagnetPlaced s msg).pendingCommit = some msg.gameState ∧
    (completeAnimation (handleMagnetPlaced s msg)).gameState = some msg.gameState ∧
    lookupMagnet (resetToOrigins msg.gameState.magnets msg.movements) "m1" =
      (lookupMagnet msg.gameState.magnets "m1").map
        (fun m => { m with position := (⟨1, 2⟩ : Pos) }) := by
  intro msg s
  have h := (handleMagnetPlaced_spec s msg).1 (by decide)
  exact ⟨by decide, h.2.2.1, h.2.2.2.1,
    h.2.2.2.2 ⟨"m1", ⟨1, 2⟩, ⟨5, 0⟩⟩ (by decide) (by decide)⟩

/-- C5: a placement-rejected message changes no field of the client state
apart from prepending the transient rejection notice. -/
theorem handlePlacementInvalid_no_state_change (s : ClientState) (reason : String) :
    (handlePlacementInvalid s reason).gameState = s.gameState ∧
    (handlePlacementInvalid s reason).myPlayerId = s.myPlayerId ∧
    (handlePlacementInvalid s reason).animatingMagnets = s.animatingMagnets ∧
    (handlePlacementInvalid s reason).pendingCommit = s.pendingCommit ∧
    (handlePlacementInvalid s reason).activeClumpAnim = s.activeClumpAnim ∧
    (handlePlacementInvalid s reason).pendingClumpCommit = s.pendingClumpCommit ∧
    (handlePlacementInvalid s reason).currentSessionId = s.currentSessionId ∧
    (handlePlacementInvalid s reason).modal = s.modal ∧
    (handlePlacementInvalid s reason).notices = (reason, "error") :: s.notices :=
  ⟨rfl, rfl, rfl, rfl, rfl, rfl, rfl, rfl, rfl⟩

/-- C6: a turn-changed message patches only the current-turn field of an
existing snapshot, leaves every other snapshot field and every other piece
of client state unchanged, and surfaces the your-turn notice exactly when
the new turn id equals the local player id. -/
theorem handleTurnChanged_spec (s : ClientState) (gs : GameState)
    (newId : Option String) (h : s.gameState = some gs) :
    (handleTurnChanged s newId).gameState =
      some { gs with currentTurnPlayerId := newId } ∧
    (∀ gs', (handleTurnChanged s newId).gameState = some gs' →
      gs'.sessionId = gs.sessionId ∧ gs'.shapeType = gs.shapeType ∧
      gs'.status = gs.status ∧ gs'.players = gs.players ∧
      gs'.magnets = gs.magnets ∧ gs'.currentTurnPlayerId = newId) ∧
    (handleTurnChanged s newId).notices =
      (if newId = s.myPlayerId then ("It's your turn!", "success") :: s.notices
       else s.notices) ∧
    (handleTurnChanged s newId).myPlayerId = s.myPlayerId ∧
    (handleTurnChanged s newId).animatingMagnets = s.animatingMagnets ∧
    (handleTurnChanged s newId).pendingCommit = s.pendingCommit ∧
    (handleTurnChanged s newId).currentSessionId = s.currentSessionId ∧
    (handleTurnChanged s newId).modal = s.modal := by
  have hshape : handleTurnChanged s newId =
      if newId = s.myPlayerId then
        { s with
          gameState := some { gs with currentTurnPlayerId := newId },
          notices := ("It's your turn!", "success") :: s.notices }
      else { s with gameState := some { gs with currentTurnPlayerId := newId } } := by
    simp only [handleTurnChanged, h, showMessage]
  rw [hshape]
  by_cases hid : newId = s.myPlayerId
  · rw [if_pos hid, if_pos hid]
    refine ⟨rfl, ?_, rfl, rfl, rfl, rfl, rfl, rfl⟩
    intro gs' hgs'
    injection hgs' with e
    subst e
    exact ⟨rfl, rfl, rfl, rfl, rfl, rfl⟩
  · rw [if_neg hid, if_neg hid]
    refine ⟨rfl, ?_, rfl, rfl, rfl, rfl, rfl, rfl⟩
    intro gs' hgs'
    injection hgs' with e
    subst e
    exact ⟨rfl, rfl, rfl, rfl, rfl, rfl⟩

/-- Witness for C6: a concrete turn change to the local player patches the
turn field and surfaces the your-turn notice. -/
theorem handleTurnChanged_spec_witness :
    let gs : GameState :=
      ⟨"S", "circle", "playing", [⟨"p1", "Ann", true, 2⟩], [], some "p2"⟩
    let s : ClientState :=
      ⟨some gs, some "p1", [], none, none, none, some "S", none, []⟩
    (handleTurnChanged s (some "p1")).gameState =
      some { gs with currentTurnPlayerId := some "p1" } ∧
    (handleTurnChanged s (some "p1")).notices =
      [("It's your turn!", "success")] := by
  intro gs s
  have h := handleTurnChanged_spec s gs (some "p1") rfl
  refine ⟨h.1, ?_⟩
  rw [h.2.2.1]
  rfl

/-- C9: a game-over message shows the winner modal iff a session is still
active locally; after a local leave (which clears the live-session id) the
same message is a complete no-op. -/
theorem handleGameOver_spec (s : ClientState) (wid wname : String) :
    (s.currentSessionId = none → handleGameOver s wid wname = s) ∧
    (∀ sid, s.currentSessionId = some sid →
      (handleGameOver s wid wname).modal =
        some (if some wid = s.myPlayerId then "You Win! 🎉"
              else wname ++ " Wins!") ∧
      (handleGameOver s wid wname).gameState = s.gameState ∧
      (handleGameOver s wid wname).myPlayerId = s.myPlayerId ∧
      (handleGameOver s wid wname).animatingMagnets = s.animatingMagnets ∧
      (handleGameOver s wid wname).currentSessionId = s.currentSessionId ∧
      (handleGameOver s wid wname).notices = s.notices) ∧
    handleGameOver (handleLeaveSession s) wid wname = handleLeaveSession s := by
  refine ⟨?_, ?_, rfl⟩
  · intro h
    simp only [handleGameOver, h]
  · intro sid h
    have hshape : handleGameOver s wid wname =
        { s with modal := some (if some wid = s.myPlayerId then "You Win! 🎉"
            else wname ++ " Wins!") } := by
      simp only [handleGameOver, h]
    rw [hshape]
    exact ⟨rfl, rfl, rfl, rfl, rfl, rfl⟩

/-- Witness for C9: with a live session the modal is filled for the local
winner; the composed leave-then-game-over case is covered without
hypotheses by the theorem itself. -/
theorem handleGameOver_spec_witness :
    let s : ClientState :=
      ⟨none, some "p1", [], none, none, none, some "AB12", none, []⟩
    (handleGameOver s "p1" "Ann").modal = some "You Win! 🎉" := by
  intro s
  have h := ((handleGameOver_spec s "p1" "Ann").2.1) "AB12" rfl
  rw [h.1]
  rfl

/-- C1 counterexample: a token-placed message that arrives while an
animation is in flight is consumed immediately — it commits its snapshot at
once, before any completion callback has run — so it is not queued. -/
theorem queuing_counterexample :
    let g1 : GameState := ⟨"S", "circle", "playing", [], [], none⟩
    let g2 : GameState := ⟨"S", "circle", "playing", [], [], some "p1"⟩
    let s0 : ClientState :=
      ⟨some g1, some "p1", [⟨"m1", ⟨0, 0⟩, ⟨9, 9⟩, 0⟩], some g1, none, none,
        some "S", none, []⟩
    let msg : MagnetPlacedMsg := ⟨g2, ⟨"m2", "p1", ⟨5, 5⟩⟩, []⟩
    s0.animatingMagnets ≠ [] ∧
    (handleMagnetPlaced s0 msg).gameState = some g2 ∧
    (handleMagnetPlaced s0 msg).gameState ≠ s0.gameState := by
  decide

/-- C1 amended: token-placed and tokens-clumped messages arriving while an
animation is in flight are processed immediately, not queued — a
token-placed message commits its (synthetic or direct) snapshot at once,
overwriting the shared `animatingMagnets` batch when it carries movements;
a tokens-clumped message at once shows its notice and starts the collection
animation (or commits directly when its clump list is empty).  Nothing is
said about the superseded animation's own completion commit: the source
never cancels its frame chain (`cancelAnimationFrame` appears only in
`reset()`), so that callback can still fire later. -/
theorem messages_processed_immediately (s : ClientState) (msg : MagnetPlacedMsg)
    (_h : s.animatingMagnets ≠ []) :
    (msg.movements = [] →
      (handleMagnetPlaced s msg).gameState = some msg.gameState) ∧
    (msg.movements ≠ [] →
      (handleMagnetPlaced s msg).gameState =
        some { msg.gameState with
          magnets := resetToOrigins msg.gameState.magnets msg.movements } ∧
      (handleMagnetPlaced s msg).animatingMagnets = msg.movements.map mkAnim) ∧
    (∀ cmsg : MagnetsClumpedMsg,
      (cmsg.clumpedMagnets = [] →
        (handleMagnetsClumped s cmsg).gameState = some cmsg.gameState) ∧
      (cmsg.clumpedMagnets ≠ [] →
        (handleMagnetsClumped s cmsg).activeClumpAnim =
          some (cmsg.clumpedMagnets, cmsg.collectorPlayerId))) := by
  refine ⟨?_, ?_, ?_⟩
  · intro he
    obtain ⟨ns, hEq⟩ := handleMagnetPlaced_empty s msg he
    rw [hEq]
  · intro hne
    obtain ⟨ns, hEq⟩ := handleMagnetPlaced_nonempty s msg hne
    rw [hEq]
    exact ⟨rfl, rfl⟩
  · intro cmsg
    constructor
    · intro he
      obtain ⟨ns, hEq⟩ := handleMagnetsClumped_empty s cmsg he
      rw [hEq]
    · intro hne
      obtain ⟨ns, hEq⟩ := handleMagnetsClumped_nonempty s cmsg hne
      rw [hEq]

/-- Witness for C1 amended: the immediate commit of a token-placed message
during a concrete in-flight animation. -/
theorem messages_processed_immediately_witness :
    let g2 : GameState := ⟨"S", "circle", "playing", [], [], some "p1"⟩
    let s0 : ClientState :=
      ⟨some ⟨"S", "circle", "playing", [], [], none⟩, some "p1",
        [⟨"m1", ⟨0, 0⟩, ⟨9, 9⟩, 0⟩], none, none, none, some "S", none, []⟩
    (handleMagnetPlaced s0 ⟨g2, ⟨"m2", "p1", ⟨5, 5⟩⟩, []⟩).gameState = some g2 := by
  intro g2 s0
  exact (messages_processed_immediately s0 ⟨g2, ⟨"m2", "p1", ⟨5, 5⟩⟩, []⟩
    (by decide)).1 rfl

/-- game.js `animateMovements` tick arithmetic: the clamped elapsed-time
fraction `progress = Math.min(1, elapsed / ANIMATION_DURATION)` fed to the
cubic ease-out `easeProgress = 1 - Math.pow(1 - progress, 3)`. -/
def easedProgress (elapsed : ℚ) : ℚ :=
  1 - (1 - min 1 (elapsed / ANIMATION_DURATION)) ^ 3

/-- The position one tick writes for one animation entry
(`fromPos + (toPos - fromPos) * easeProgress`, coordinate-wise). -/
def animPositionAt (a : AnimMagnet) (elapsed : ℚ) : Pos :=
  ⟨a.fromPos.x + (a.toPos.x - a.fromPos.x) * easedProgress elapsed,
   a.fromPos.y + (a.toPos.y - a.fromPos.y) * easedProgress elapsed⟩

/-- One whole `animate` tick over the live magnet list: for each animation
entry, find the magnet by id and write the interpolated position. -/
def applyAnimTick (magnets : List Magnet) (anims : List AnimMagnet)
    (elapsed : ℚ) : List Magnet :=
  setEach AnimMagnet.magnetId (fun a => animPositionAt a elapsed) magnets anims

/-- C4: the animated position equals the origin at elapsed 0 and the
destination once the fixed duration has elapsed, always lies on the
straight segment between origin and destination (eased parameter in
[0, 1]), the eased progress is monotone in elapsed time, and the tick
writes exactly this position into the movement's magnet. -/
theorem animPositionAt_spec (a : AnimMagnet) (elapsed e1 e2 : ℚ) :
    animPositionAt a 0 = a.fromPos ∧
    (ANIMATION_DURATION ≤ elapsed → animPositionAt a elapsed = a.toPos) ∧
    (0 ≤ elapsed →
      0 ≤ easedProgress elapsed ∧ easedProgress elapsed ≤ 1 ∧
      ∃ t, 0 ≤ t ∧ t ≤ 1 ∧
        animPositionAt a elapsed =
          ⟨a.fromPos.x + t * (a.toPos.x - a.fromPos.x),
           a.fromPos.y + t * (a.toPos.y - a.fromPos.y)⟩) ∧
    (0 ≤ e1 → e1 ≤ e2 → easedProgress e1 ≤ easedProgress e2) ∧
    (∀ (ms : List Magnet) (anims : List AnimMagnet), a ∈ anims →
      (anims.map AnimMagnet.magnetId).Nodup →
      lookupMagnet (applyAnimTick ms anims elapsed) a.magnetId =
        (lookupMagnet ms a.magnetId).map
          (fun m => { m with position := animPositionAt a elapsed })) := by
  refine ⟨?_, ?_, ?_, ?_, ?_⟩
  · have h0 : easedProgress 0 = 0 := by
      norm_num [easedProgress, ANIMATION_DURATION]
    simp [animPositionAt, h0]
  · intro hdur
    have h1 : easedProgress elapsed = 1 := by
      have : min 1 (elapsed / ANIMATION_DURATION) = 1 := by
        rw [min_eq_left]
        rw [le_div_iff₀ (by norm_num [ANIMATION_DURATION])]
        linarith [hdur]
      simp [easedProgress, this]
    simp only [animPositionAt, h1]
    have hx : a.fromPos.x + (a.toPos.x - a.fromPos.x) * 1 = a.toPos.x := by ring
    have hy : a.fromPos.y + (a.toPos.y - a.fromPos.y) * 1 = a.toPos.y := by ring
    rw [hx, hy]
  · intro hel
    have hp0 : 0 ≤ min 1 (elapsed / ANIMATION_DURATION) := by
      apply le_min
      · norm_num
      · exact div_nonneg hel (by norm_num [ANIMATION_DURATION])
    have hp1 : min 1 (elapsed / ANIMATION_DURATION) ≤ 1 := min_le_left _ _
    have hq0 : 0 ≤ 1 - min 1 (elapsed / ANIMATION_DURATION) := by linarith
    have hq1 : 1 - min 1 (elapsed / ANIMATION_DURATION) ≤ 1 := by linarith
    have he0 : 0 ≤ easedProgress elapsed := by
      have := pow_le_one₀ hq0 hq1 (n := 3)
      simp only [easedProgress]
      linarith
    have he1 : easedProgress elapsed ≤ 1 := by
      have := pow_nonneg hq0 3
      simp only [easedProgress]
      linarith
    refine ⟨he0, he1, easedProgress elapsed, he0, he1, ?_⟩
    simp only [animPositionAt]
    have hx : a.fromPos.x + (a.toPos.x - a.fromPos.x) * easedProgress elapsed =
        a.fromPos.x + easedProgress elapsed * (a.toPos.x - a.fromPos.x) := by ring
    have hy : a.fromPos.y + (a.toPos.y - a.fromPos.y) * easedProgress elapsed =
        a.fromPos.y + easedProgress elapsed * (a.toPos.y - a.fromPos.y) := by ring
    rw [hx, hy]
  · intro h0 h12
    have hdiv : e1 / ANIMATION_DURATION ≤ e2 / ANIMATION_DURATION := by
      rw [div_le_div_iff_of_pos_right (by norm_num [ANIMATION_DURATION])]
      exact h12
    have hmin : min 1 (e1 / ANIMATION_DURATION) ≤ min 1 (e2 / ANIMATION_DURATION) :=
      min_le_min (le_refl 1) hdiv
    simp only [easedProgress]
    have hcube : (1 - min 1 (e2 / ANIMATION_DURATION)) ^ 3 ≤
        (1 - min 1 (e1 / ANIMATION_DURATION)) ^ 3 := by
      set u := 1 - min 1 (e2 / ANIMATION_DURATION) with hu
      set v := 1 - min 1 (e1 / ANIMATION_DURATION) with hv
      have huv : u ≤ v := by simp only [hu, hv]; linarith
      nlinarith [sq_nonneg (u + v), sq_nonneg (u - v), sq_nonneg u, sq_nonneg v]
    linarith
  · intro ms anims ha hnodup
    exact lookupMagnet_setEach AnimMagnet.magnetId
      (fun a => animPositionAt a elapsed) anims ms a ha hnodup

/-- Witness for C4: a concrete movement animation reaches its destination at
the full duration and progresses monotonically between two concrete ticks. -/
theorem animPositionAt_spec_witness :
    let a : AnimMagnet := ⟨"m1", ⟨0, 0⟩, ⟨10, 20⟩, 0⟩
    ANIMATION_DURATION ≤ 600 ∧ animPositionAt a 600 = a.toPos ∧
    (0:ℚ) ≤ 150 ∧ (150:ℚ) ≤ 450 ∧ easedProgress 150 ≤ easedProgress 450 := by
  intro a
  have h := animPositionAt_spec a 600 150 450
  exact ⟨by norm_num [ANIMATION_DURATION],
    h.2.1 (by norm_num [ANIMATION_DURATION]), by norm_num, by norm_num,
    h.2.2.2.1 (by norm_num) (by norm_num)⟩

/-- The mask canvas context: a pixel oracle giving the red channel value at
an integer pixel, what `maskCtx.getImageData(Math.floor(x), Math.floor(y),
1, 1).data[0]` reads.  `none` models a `maskCtx` that was never
initialized. -/
structure MaskCtx where
  pixelRed : Int → Int → Nat

/-- Shapes module `isInsideShape(x, y)`: false without a mask context,
otherwise true iff the red channel at the floored point exceeds 128. -/
def isInsideShape (maskCtx : Option MaskCtx) (x y : ℚ) : Bool :=
  match maskCtx with
  | none => false
  | some m => decide (128 < m.pixelRed ⌊x⌋ ⌊y⌋)

/-- The outward effect of one `attemptPlacement` call: either the local
rejection notice or the placement command sent to the server. -/
inductive PlacementAction where
  | localReject (text ty : String)
  | sendPlaceMagnet (coords : Pos)
deriving DecidableEq, Repr

/-- game.js `attemptPlacement(coords)`: ask the mask oracle, surface a local
warning when outside, otherwise emit the placement command. -/
def attemptPlacement (maskCtx : Option MaskCtx) (coords : Pos) : PlacementAction :=
  if !(isInsideShape maskCtx coords.x coords.y) then
    PlacementAction.localReject "Cannot place magnet outside the shape!" "warning"
  else PlacementAction.sendPlaceMagnet coords

/-- C10: with an uninitialized mask context, `isInsideShape` is false at
every point, so `attemptPlacement` always surfaces the local out-of-shape
notice and never emits a place-token command. -/
theorem isInsideShape_uninitialized (x y : ℚ) (coords : Pos) :
    isInsideShape none x y = false ∧
    attemptPlacement none coords =
      PlacementAction.localReject "Cannot place magnet outside the shape!" "warning" ∧
    ∀ c : Pos, attemptPlacement none coords ≠ PlacementAction.sendPlaceMagnet c := by
  refine ⟨rfl, rfl, ?_⟩
  intro c h
  exact PlacementAction.noConfusion h

/-- Witness for C10: the uninitialized mask rejects the canvas center. -/
theorem isInsideShape_uninitialized_witness :
    isInsideShape none 400 300 = false ∧
    attemptPlacement none ⟨400, 300⟩ =
      PlacementAction.localReject "Cannot place magnet outside the shape!"
        "warning" :=
  ⟨(isInsideShape_uninitialized 400 300 ⟨400, 300⟩).1,
   (isInsideShape_uninitialized 400 300 ⟨400, 300⟩).2.1⟩

/-- Shapes module constant `CANVAS_WIDTH = 800`. -/
def CANVAS_WIDTH : ℚ := 800

/-- Shapes module constant `CANVAS_HEIGHT = 600`. -/
def CANVAS_HEIGHT : ℚ := 600

/-- One abstract draw command of the render pass.  Each constructor records
the parameters the corresponding canvas calls depend on. -/
inductive DrawCmd where
  | clear
  | gridLineV (x : ℚ)
  | gridLineH (y : ℚ)
  | shape (shapeType : String)
  | magnet (x y : ℚ) (playerIndex : Nat) (scale alpha : ℚ) (ownRing : Bool)
  | attractionLine (p1 p2 : Pos) (alpha width : ℝ)
  | pullArrow (mx my : ℚ) (strength : ℝ)
  | clumpLine (p1 p2 : Pos) (pulse : ℝ)
  | clumpCircle (mx my : ℚ) (radius : ℝ) (alpha : ℝ)

/-- game.js `drawBackground()`: vertical grid lines at 0, 40, ..., < 800
(20 of them) and horizontal ones at 0, 40, ..., < 600 (15 of them). -/
def gridCmds : List DrawCmd :=
  ((List.range 20).map fun i => DrawCmd.gridLineV (40 * (i : ℚ))) ++
  ((List.range 15).map fun i => DrawCmd.gridLineH (40 * (i : ℚ)))

/-- game.js `drawMagnet` / `drawMagnetAt`: position, owner ordinal (the
color index `players.findIndex(p => p.id === playerId)`), unit scale and
alpha, and whether the local-ownership ring is added. -/
def drawMagnetCmd (players : List Player) (myPlayerId : Option String)
    (m : Magnet) : DrawCmd :=
  DrawCmd.magnet m.position.x m.position.y
    (players.findIdx (fun p => p.id == m.playerId)) 1 1
    (some m.playerId == myPlayerId)

/-- The squared Euclidean distance `dx*dx + dy*dy` between two positions,
exact over the rationals. -/
def distSq (p q : Pos) : ℚ :=
  (q.x - p.x) ^ 2 + (q.y - p.y) ^ 2

/-- game.js `Math.sqrt(dx * dx + dy * dy)`: the Euclidean distance, as the
real square root of the rational squared distance. -/
noncomputable def distR (p q : Pos) : ℝ :=
  Real.sqrt (((q.x - p.x : ℚ) : ℝ) ^ 2 + ((q.y - p.y : ℚ) : ℝ) ^ 2)

theorem distR_eq_sqrt (p q : Pos) : distR p q = Real.sqrt ((distSq p q : ℚ) : ℝ) := by
  unfold distR distSq
  congr 1
  push_cast
  ring

theorem distR_lt_iff (p q : Pos) (c : ℚ) (hc : 0 < c) :
    distR p q < (c : ℝ) ↔ distSq p q < c ^ 2 := by
  rw [distR_eq_sqrt, Real.sqrt_lt' (by exact_mod_cast hc)]
  norm_cast

theorem lt_distR_iff (p q : Pos) (c : ℚ) (hc : 0 ≤ c) :
    (c : ℝ) < distR p q ↔ c ^ 2 < distSq p q := by
  rw [distR_eq_sqrt, Real.lt_sqrt (by exact_mod_cast hc)]
  norm_cast

theorem distR_le_iff (p q : Pos) (c : ℚ) (hc : 0 ≤ c) :
    distR p q ≤ (c : ℝ) ↔ distSq p q ≤ c ^ 2 := by
  rw [distR_eq_sqrt, Real.sqrt_le_left (by exact_mod_cast hc)]
  norm_cast

open scoped Classical in
/-- The body of the pair loop of game.js `drawAttractionLines`: the dashed
graduated line (plus the mid-point pulling arrow when `distance <
CLUMP_THRESHOLD * 2`) for `CLUMP_THRESHOLD < distance < ATTRACTION_RANGE`,
and the pulsing clump highlight (line plus warning circle, with the
`Date.now()`-based sinusoidal pulse, here taking the clock value `t`) for
`distance <= CLUMP_THRESHOLD`. -/
noncomputable def pairCmds (t : ℝ) (m1 m2 : Magnet) : List DrawCmd :=
  let d := distR m1.position m2.position
  let attractionPart : List DrawCmd :=
    if d < ((ATTRACTION_RANGE : ℚ) : ℝ) ∧ ((CLUMP_THRESHOLD : ℚ) : ℝ) < d then
      let normalizedDist := d / ((ATTRACTION_RANGE : ℚ) : ℝ)
      let strength := 1 / (normalizedDist * normalizedDist + 0.2)
      let clampedStrength := min strength 3
      DrawCmd.attractionLine m1.position m2.position
          (min (clampedStrength * 0.25) 0.8) (1 + clampedStrength * 1.5) ::
        (if d < ((CLUMP_THRESHOLD : ℚ) : ℝ) * 2 then
          [DrawCmd.pullArrow ((m1.position.x + m2.position.x) / 2)
            ((m1.position.y + m2.position.y) / 2) clampedStrength]
        else [])
    else []
  let clumpPart : List DrawCmd :=
    if d ≤ ((CLUMP_THRESHOLD : ℚ) : ℝ) then
      let pulse := 0.6 + Real.sin (t / 200) * 0.2
      [DrawCmd.clumpLine m1.position m2.position pulse,
       DrawCmd.clumpCircle ((m1.position.x + m2.position.x) / 2)
         ((m1.position.y + m2.position.y) / 2) (d / 2 + 10) (pulse * 0.5)]
    else []
  attractionPart ++ clumpPart

/-- The ordered `i < j` pairs of the double loop of `drawAttractionLines`. -/
def allPairs : List α → List (α × α)
  | [] => []
  | x :: xs => (xs.map fun y => (x, y)) ++ allPairs xs

/-- game.js `drawAttractionLines`: early return below two magnets,
otherwise the pair-loop output in loop order. -/
noncomputable def drawAttractionLines (t : ℝ) (magnets : List Magnet) : List DrawCmd :=
  if magnets.length < 2 then []
  else ((allPairs magnets).map fun pr => pairCmds t pr.1 pr.2).flatten

/-- game.js `render()`: clear, background grid, shape outline, magnets,
attraction lines.  The clock value `t` models the `Date.now()` read by the
clump pulse. -/
noncomputable def render (t : ℝ) (gs : GameState) (myPlayerId : Option String) :
    List DrawCmd :=
  DrawCmd.clear ::
    (gridCmds ++ [DrawCmd.shape gs.shapeType] ++
      gs.magnets.map (drawMagnetCmd gs.players myPlayerId) ++
      drawAttractionLines t gs.magnets)

/-- A draw-command list contains the dashed graduated attraction line. -/
def hasAttractionLine (cs : List DrawCmd) : Prop :=
  ∃ p1 p2 alpha width, DrawCmd.attractionLine p1 p2 alpha width ∈ cs

/-- A draw-command list contains the pulsing clump-highlight line. -/
def hasClumpHighlight (cs : List DrawCmd) : Prop :=
  ∃ p1 p2 pulse, DrawCmd.clumpLine p1 p2 pulse ∈ cs

theorem drawAttractionLines_pair (t : ℝ) (m1 m2 : Magnet) :
    drawAttractionLines t [m1, m2] = pairCmds t m1 m2 := by
  simp [drawAttractionLines, allPairs]

/-- C7: for a pair of tokens the dashed graduated attraction line is
emitted exactly when the distance is strictly between the clump threshold
and the attraction range (characterized exactly by the squared distance),
and the pulsing clump highlight exactly when the distance is at most the
clump threshold; at distance exactly the clump threshold the highlight, and
not the graduated line, is drawn. -/
theorem drawAttractionLines_boundary (t : ℝ) (m1 m2 : Magnet) :
    (hasAttractionLine (drawAttractionLines t [m1, m2]) ↔
      CLUMP_THRESHOLD ^ 2 < distSq m1.position m2.position ∧
      distSq m1.position m2.position < ATTRACTION_RANGE ^ 2) ∧
    (hasClumpHighlight (drawAttractionLines t [m1, m2]) ↔
      distSq m1.position m2.position ≤ CLUMP_THRESHOLD ^ 2) ∧
    (distSq m1.position m2.position = CLUMP_THRESHOLD ^ 2 →
      hasClumpHighlight (drawAttractionLines t [m1, m2]) ∧
      ¬ hasAttractionLine (drawAttractionLines t [m1, m2])) := by
  have hA : hasAttractionLine (pairCmds t m1 m2) ↔
      distR m1.position m2.position < ((ATTRACTION_RANGE : ℚ) : ℝ) ∧
      ((CLUMP_THRESHOLD : ℚ) : ℝ) < distR m1.position m2.position := by
    simp only [pairCmds]
    split_ifs <;> simp_all [hasAttractionLine]
  have hB : hasClumpHighlight (pairCmds t m1 m2) ↔
      distR m1.position m2.position ≤ ((CLUMP_THRESHOLD : ℚ) : ℝ) := by
    simp only [pairCmds]
    split_ifs <;> simp_all [hasClumpHighlight]
  have e1 := lt_distR_iff m1.position m2.position CLUMP_THRESHOLD
    (by norm_num [CLUMP_THRESHOLD])
  have e2 := distR_lt_iff m1.position m2.position ATTRACTION_RANGE
    (by norm_num [ATTRACTION_RANGE])
  have e3 := distR_le_iff m1.position m2.position CLUMP_THRESHOLD
    (by norm_num [CLUMP_THRESHOLD])
  refine ⟨?_, ?_, ?_⟩
  · rw [drawAttractionLines_pair, hA, e2, e1]
    exact and_comm
  · rw [drawAttractionLines_pair, hB, e3]
  · intro heq
    refine ⟨?_, ?_⟩
    · rw [drawAttractionLines_pair, hB, e3, heq]
    · rw [drawAttractionLines_pair, hA]
      rintro ⟨hlt, hgt⟩
      rw [e1, heq] at hgt
      exact lt_irrefl _ hgt

/-- Witness for C7: two concrete tokens at distance exactly the clump
threshold get the clump highlight and no graduated line. -/
theorem drawAttractionLines_boundary_witness :
    distSq (⟨0, 0⟩ : Pos) (⟨30, 0⟩ : Pos) = CLUMP_THRESHOLD ^ 2 ∧
    (hasClumpHighlight
        (drawAttractionLines 0 [⟨"a", "p1", ⟨0, 0⟩⟩, ⟨"b", "p1", ⟨30, 0⟩⟩]) ∧
      ¬ hasAttractionLine
        (drawAttractionLines 0 [⟨"a", "p1", ⟨0, 0⟩⟩, ⟨"b", "p1", ⟨30, 0⟩⟩])) := by
  refine ⟨by norm_num [distSq, CLUMP_THRESHOLD], ?_⟩
  exact (drawAttractionLines_boundary 0 ⟨"a", "p1", ⟨0, 0⟩⟩ ⟨"b", "p1", ⟨30, 0⟩⟩).2.2
    (by norm_num [distSq, CLUMP_THRESHOLD])

theorem pairCmds_time_indep (t1 t2 : ℝ) (m1 m2 : Magnet)
    (h : ¬ distR m1.position m2.position ≤ ((CLUMP_THRESHOLD : ℚ) : ℝ)) :
    pairCmds t1 m1 m2 = pairCmds t2 m1 m2 := by
  simp only [pairCmds]
  rw [if_neg h, if_neg h]

theorem pairCmds_clumped (t : ℝ) (m1 m2 : Magnet)
    (hle : distR m1.position m2.position ≤ ((CLUMP_THRESHOLD : ℚ) : ℝ)) :
    pairCmds t m1 m2 =
      [DrawCmd.clumpLine m1.position m2.position
        (0.6 + Real.sin (t / 200) * 0.2),
       DrawCmd.clumpCircle ((m1.position.x + m2.position.x) / 2)
         ((m1.position.y + m2.position.y) / 2)
         (distR m1.position m2.position / 2 + 10)
         ((0.6 + Real.sin (t / 200) * 0.2) * 0.5)] := by
  have hnl : ¬ (distR m1.position m2.position < ((ATTRACTION_RANGE : ℚ) : ℝ) ∧
      ((CLUMP_THRESHOLD : ℚ) : ℝ) < distR m1.position m2.position) :=
    fun hc => (not_le.mpr hc.2) hle
  simp only [pairCmds]
  rw [if_neg hnl, if_pos hle]
  rfl

theorem drawAttractionLines_time_indep (t1 t2 : ℝ) (magnets : List Magnet)
    (h : ∀ pr ∈ allPairs magnets,
      ¬ distR (Prod.fst pr).position (Prod.snd pr).position ≤
        ((CLUMP_THRESHOLD : ℚ) : ℝ)) :
    drawAttractionLines t1 magnets = drawAttractionLines t2 magnets := by
  unfold drawAttractionLines
  split_ifs with hc
  · rfl
  · exact congrArg List.flatten
      (List.map_congr_left fun pr hpr => pairCmds_time_indep t1 t2 _ _ (h pr hpr))

/-- C8 counterexample: the same snapshot rendered at two clock times yields
different draw output — two clumped tokens make the pulsing highlight
depend on the `Date.now()` value through the sinusoidal pulse. -/
theorem render_time_dependent_counterexample :
    render 0
        ⟨"S", "circle", "playing", [], [⟨"a", "p", ⟨0, 0⟩⟩, ⟨"b", "p", ⟨0, 0⟩⟩],
          none⟩ none ≠
      render (100 * Real.pi)
        ⟨"S", "circle", "playing", [], [⟨"a", "p", ⟨0, 0⟩⟩, ⟨"b", "p", ⟨0, 0⟩⟩],
          none⟩ none := by
  intro h
  have hle : distR ((⟨"a", "p", ⟨0, 0⟩⟩ : Magnet).position)
      ((⟨"b", "p", ⟨0, 0⟩⟩ : Magnet).position) ≤ ((CLUMP_THRESHOLD : ℚ) : ℝ) := by
    rw [distR_le_iff _ _ _ (by norm_num [CLUMP_THRESHOLD])]
    norm_num [distSq, CLUMP_THRESHOLD]
  simp only [render] at h
  injection h with _ h1
  have h4 := List.append_cancel_left h1
  rw [drawAttractionLines_pair, drawAttractionLines_pair,
    pairCmds_clumped 0 _ _ hle, pairCmds_clumped (100 * Real.pi) _ _ hle] at h4
  injection h4 with hhead _
  injection hhead with _ _ h5
  rw [show ((0 : ℝ) / 200) = 0 by norm_num, Real.sin_zero,
    show (100 : ℝ) * Real.pi / 200 = Real.pi / 2 by ring,
    Real.sin_pi_div_two] at h5
  norm_num at h5

/-- C8 amended: the render pass is a pure function of the snapshot, the
local player id and the clock value (it cannot mutate the Scene Model),
and whenever no token pair is within the clump threshold the output is
clock-independent, so rendering the same snapshot twice yields identical
output; with a clumped pair the pulsing highlight makes the output depend
on the clock. -/
theorem render_deterministic_no_clump (gs : GameState) (my : Option String)
    (t1 t2 : ℝ)
    (h : ∀ pr ∈ allPairs gs.magnets,
      ¬ distR (Prod.fst pr).position (Prod.snd pr).position ≤
        ((CLUMP_THRESHOLD : ℚ) : ℝ)) :
    render t1 gs my = render t2 gs my := by
  unfold render
  rw [drawAttractionLines_time_indep t1 t2 gs.magnets h]

/-- Witness for C8 amended: a concrete snapshot with one pair beyond the
clump threshold renders identically at two different clock values. -/
theorem render_deterministic_no_clump_witness :
    render 0
        ⟨"S", "circle", "playing", [], [⟨"a", "p", ⟨0, 0⟩⟩, ⟨"b", "p", ⟨100, 0⟩⟩],
          none⟩ none =
      render 1
        ⟨"S", "circle", "playing", [], [⟨"a", "p", ⟨0, 0⟩⟩, ⟨"b", "p", ⟨100, 0⟩⟩],
          none⟩ none := by
  apply render_deterministic_no_clump
  intro pr hpr
  simp only [allPairs, List.map_cons, List.map_nil, List.nil_append,
    List.append_nil, List.mem_cons, List.not_mem_nil, or_false] at hpr
  subst hpr
  rw [distR_le_iff _ _ _ (by norm_num [CLUMP_THRESHOLD])]
  norm_num [distSq, CLUMP_THRESHOLD]

end MagnetShapes
